import Mathlib

/-!
Shallow embedding of the Double Ratchet session engine (`state.go` of the
`doubleratchet` Go package) together with theorems about its operations.

Modelling choices, all driven by the Go source:

* 32-byte values (`[32]byte`: root key, chain keys, message keys, DH public
  keys) are abstract opaque values modelled as `Nat`; the Go zero value
  `[32]byte{}` is the value `0`.  Byte strings (plaintext, ciphertext,
  associated data, encoded header bytes) are likewise opaque and modelled
  as `Nat`.
* The injected `Crypto` interface is a structure of functions.  The single
  effect `GenerateDH` (the engine's only source of randomness, which may
  fail) is modelled as a function of an explicit random-seed argument
  returning `Option DHPair`; the seed is threaded as an extra argument into
  each operation that may generate a key pair.
* The Go struct `state` carries the `Crypto` field; since the engine never
  mutates it, it is passed as an explicit argument `c` instead of being a
  field of the Lean structure.
* `MkSkipped` is `map[string][32]byte` with key `hex(dh) ++ decimal(n)`
  (function `skippedKey`).  The hex part has fixed length 64, so the string
  is in bijection with the pair `(dh, n)`; the map is modelled as an
  association list over the pair, with Go map semantics (unique keys,
  insert overwrites).
* Go note, central to the decrypt path: `var sc state = *s` copies the
  struct but the `MkSkipped` map inside it is a reference; shadow `sc` and
  the live state `s` share one map object, so every map mutation performed
  on the shadow is immediately visible through the live session, while the
  other (value) fields of the shadow are transferred to the live session
  only by the final `*s = sc`.  `RatchetDecrypt` below reproduces this with
  `commitMapOnly`.
-/

namespace DoubleRatchet

/-- Abstract 32-byte value ( `[32]byte` in Go). -/
abbrev Key := Nat

/-- Opaque byte string: plaintext. -/
abbrev Plaintext := Nat

/-- Opaque byte string: associated data (`AssociatedData` in Go). -/
abbrev AssociatedData := Nat

/-- Opaque byte string: AEAD output. -/
abbrev Ciphertext := Nat

/-- The Go zero value `[32]byte{}`, used as the "no remote key yet" sentinel. -/
def zeroKey : Key := 0

/-- A DH ratchet key pair (`DHPair` in Go, with `PrivateKey()` and
`PublicKey()` accessors). -/
structure DHPair where
  PrivateKey : Key
  PublicKey : Key
deriving DecidableEq, Repr

/-- The injected cryptography interface (`Crypto` in Go).  The concrete
default suite (X25519 / HKDF / AEAD) is not part of `state.go`; the engine
uses these operations abstractly. -/
structure Crypto where
  GenerateDH : Nat → Option DHPair
  DH : DHPair → Key → Key
  KdfRK : Key → Key → Key × Key
  KdfCK : Key → Key × Key
  Encrypt : Key → Plaintext → Nat → Ciphertext
  Decrypt : Key → Ciphertext → Nat → Option Plaintext

/-- Message header (`MessageHeader` in Go): sender's current ratchet public
key `DH`, position `N` in the sending chain, and length `PN` of the
previous sending chain. -/
structure MessageHeader where
  DH : Key
  N : Nat
  PN : Nat
deriving DecidableEq, Repr

/-- A double-ratchet message (`Message` in Go). -/
structure Message where
  Header : MessageHeader
  Ciphertext : Nat
deriving DecidableEq, Repr

/-- Modelled from the spec: `EncodeWithAD` of the message codec is not in
`state.go`; per spec section 4.2 it is a deterministic injective
serialization of `(DH, PN, N)` concatenated with the associated data.
`Nat.pair` gives exactly such an injective encoding. -/
def encodeWithAD (h : MessageHeader) (ad : AssociatedData) : Nat :=
  Nat.pair h.DH (Nat.pair h.PN (Nat.pair h.N ad))

/-- The key of the skipped-message map (`skippedKey` in Go builds the string
`hex(dh) ++ decimal(n)`; since the hex part has fixed length the string
determines and is determined by the pair `(dh, n)`). -/
def skippedKey (dh : Key) (n : Nat) : Key × Nat := (dh, n)

/-- The skipped-message-keys map `MkSkipped`, modelled as an association
list with unique keys (Go `map` semantics). -/
abbrev SkipMap := List ((Key × Nat) × Key)

/-- Map lookup (`mk, ok := s.MkSkipped[k]`). -/
def lookupSk : SkipMap → Key × Nat → Option Key
  | [], _ => none
  | (k', v) :: t, k => if k' = k then some v else lookupSk t k

/-- Map deletion (`delete(s.MkSkipped, k)`). -/
def eraseSk : SkipMap → Key × Nat → SkipMap
  | [], _ => []
  | (k', v) :: t, k => if k' = k then eraseSk t k else (k', v) :: eraseSk t k

/-- Map insertion (`s.MkSkipped[k] = mk`): overwrite semantics. -/
def insertSk (m : SkipMap) (k : Key × Nat) (v : Key) : SkipMap :=
  (k, v) :: eraseSk m k

/-- The session state (Go struct `state`; the immutable `Crypto` field is
passed separately as an argument, see the module comment). -/
structure State where
  RK : Key
  DHr : Key
  DHs : DHPair
  CKs : Key
  CKr : Key
  Ns : Nat
  Nr : Nat
  PN : Nat
  MkSkipped : SkipMap
  MaxSkip : Nat
deriving DecidableEq, Repr

/-- The typed errors the engine surfaces (Go returns `fmt.Errorf` strings;
each constructor stands for one distinct format string, the `Wrap`
constructors for the wrapping `"...: %s"` messages in `RatchetDecrypt`). -/
inductive DRError where
  /-- `"sharedKey must be non-zero"` (in `New`). -/
  | zeroSharedKey
  /-- `"maxSkip must be non-negative"` (in `WithMaxSkip`). -/
  | negativeMaxSkip
  /-- `"failed to generate dh pair"` (in `New` / `dhRatchet`). -/
  | generateDHFailed
  /-- `"too many messages: %d"` (in `skipMessageKeys`). -/
  | tooManyMessages (n : Nat)
  /-- `"can't decrypt message"` (in `trySkippedMessageKeys`). -/
  | cantDecryptMessage
  /-- `"failed to decrypt"` (main AEAD failure in `RatchetDecrypt`). -/
  | decryptFailed
  /-- `"can't try skipped message: %s"`. -/
  | trySkippedWrap (e : DRError)
  /-- `"failed to skip previous chain message keys: %s"`. -/
  | skipPreviousWrap (e : DRError)
  /-- `"failed to perform ratchet step: %s"`. -/
  | ratchetStepWrap (e : DRError)
  /-- `"failed to skip current chain message keys: %s"`. -/
  | skipCurrentWrap (e : DRError)
deriving DecidableEq, Repr

/-- `New(sharedKey)` without options: reject the zero shared key, seed all
three secrets with the shared key, generate the ratchet key pair. -/
def New (c : Crypto) (rng : Nat) (sharedKey : Key) : Except DRError State :=
  if sharedKey = zeroKey then Except.error DRError.zeroSharedKey
  else
    match c.GenerateDH rng with
    | none => Except.error DRError.generateDHFailed
    | some p =>
      Except.ok
        { RK := sharedKey, DHr := zeroKey, DHs := p, CKs := sharedKey, CKr := sharedKey,
          Ns := 0, Nr := 0, PN := 0, MkSkipped := [], MaxSkip := 1000 }

/-- Option `WithRemoteKey`: install the remote public key, then advance
`(RK, CKs)` by one root-KDF step (applied by `New` after `DHs` exists). -/
def WithRemoteKey (c : Crypto) (dhRemotePubKey : Key) (s : State) : State :=
  let s1 : State := { s with DHr := dhRemotePubKey }
  { s1 with RK := (c.KdfRK s1.RK (c.DH s1.DHs s1.DHr)).1,
            CKs := (c.KdfRK s1.RK (c.DH s1.DHs s1.DHr)).2 }

/-- `New(sharedKey, WithRemoteKey(dhr))`: the initiator construction path. -/
def NewWithRemoteKey (c : Crypto) (rng : Nat) (sharedKey dhRemotePubKey : Key) :
    Except DRError State :=
  Except.map (WithRemoteKey c dhRemotePubKey) (New c rng sharedKey)

/-- Option `WithMaxSkip`: override the skip bound; negative values are a
configuration error (Go takes an `int`). -/
def WithMaxSkip (maxSkip : Int) (s : State) : Except DRError State :=
  if maxSkip < 0 then Except.error DRError.negativeMaxSkip
  else Except.ok { s with MaxSkip := maxSkip.toNat }

/-- `RatchetEncrypt`: advance the sending chain once (Go updates `CKs`
first, forms the header with the pre-increment `Ns`, increments `Ns`, then
encrypts under the derived message key; the tuple below is that same data
flow written as one expression). -/
def RatchetEncrypt (c : Crypto) (s : State) (plaintext : Plaintext) (ad : AssociatedData) :
    Message × State :=
  ({ Header := { DH := s.DHs.PublicKey, N := s.Ns, PN := s.PN },
     Ciphertext := c.Encrypt (c.KdfCK s.CKs).2 plaintext
       (encodeWithAD { DH := s.DHs.PublicKey, N := s.Ns, PN := s.PN } ad) },
   { s with CKs := (c.KdfCK s.CKs).1, Ns := s.Ns + 1 })

/-- `trySkippedMessageKeys`: on a cache hit attempt AEAD decryption with
the cached key; on success delete the entry (through the shared map) and
return the plaintext, on tag failure return an error; on a miss return
`none` with no change. -/
def trySkippedMessageKeys (c : Crypto) (s : State) (m : Message) (ad : AssociatedData) :
    Except DRError (Option Plaintext) × State :=
  match lookupSk s.MkSkipped (skippedKey m.Header.DH m.Header.N) with
  | some mk =>
    match c.Decrypt mk m.Ciphertext (encodeWithAD m.Header ad) with
    | none => (Except.error DRError.cantDecryptMessage, s)
    | some plaintext =>
      (Except.ok (some plaintext),
       { s with MkSkipped := eraseSk s.MkSkipped (skippedKey m.Header.DH m.Header.N) })
  | none => (Except.ok none, s)

/-- One unfolding layer of the `for s.Nr < until` loop of
`skipMessageKeys`: derive `(CKr, mk)`, record `mk` under `(DHr, Nr)`,
increment `Nr`.  The `fuel` argument is the number of remaining loop
iterations; since every iteration increments `Nr` by exactly one, running
with `fuel = untl - s.Nr` (see `skipMessageKeysLoop`) is the Go loop. -/
def skipMessageKeysGo (c : Crypto) (untl : Nat) : Nat → State → State
  | 0, s => s
  | fuel + 1, s =>
    if s.Nr < untl then
      skipMessageKeysGo c untl fuel
        { s with CKr := (c.KdfCK s.CKr).1,
                 MkSkipped := insertSk s.MkSkipped (skippedKey s.DHr s.Nr) (c.KdfCK s.CKr).2,
                 Nr := s.Nr + 1 }
    else s

/-- The `for s.Nr < until` loop of `skipMessageKeys`. -/
def skipMessageKeysLoop (c : Crypto) (s : State) (untl : Nat) : State :=
  skipMessageKeysGo c untl (untl - s.Nr) s

/-- `skipMessageKeys`: bound check first (error before any mutation), then
the derivation loop. -/
def skipMessageKeys (c : Crypto) (s : State) (untl : Nat) : Except DRError Unit × State :=
  if s.Nr + s.MaxSkip < untl then
    (Except.error (DRError.tooManyMessages (untl - s.Nr)), s)
  else
    (Except.ok (), skipMessageKeysLoop c s untl)

/-- `dhRatchet`: the single DH ratchet step, in the Go assignment order:
`PN ← Ns`, `Ns ← 0`, `Nr ← 0`, `DHr ← header.DH`, `(RK, CKr) ← KdfRK`,
generate fresh `DHs` (may fail), `(RK, CKs) ← KdfRK`. -/
def dhRatchet (c : Crypto) (rng : Nat) (s : State) (mh : MessageHeader) :
    Except DRError Unit × State :=
  let s1 : State := { s with PN := s.Ns, Ns := 0, Nr := 0, DHr := mh.DH }
  let s2 : State := { s1 with RK := (c.KdfRK s1.RK (c.DH s1.DHs s1.DHr)).1,
                              CKr := (c.KdfRK s1.RK (c.DH s1.DHs s1.DHr)).2 }
  match c.GenerateDH rng with
  | none => (Except.error DRError.generateDHFailed, s2)
  | some p =>
    let s3 : State := { s2 with DHs := p }
    (Except.ok (),
     { s3 with RK := (c.KdfRK s3.RK (c.DH s3.DHs s3.DHr)).1,
               CKs := (c.KdfRK s3.RK (c.DH s3.DHs s3.DHr)).2 })

/-- Go map aliasing: the shadow copy `sc` shares the `MkSkipped` map object
with the live state `s`, so on an early return the live session has the
shadow's map but keeps its own value fields. -/
def commitMapOnly (s sc : State) : State :=
  { s with MkSkipped := sc.MkSkipped }

/-- `RatchetDecrypt`: the receive path.  It works on the shadow copy and
assigns `*s = sc` only after the final AEAD succeeds — except that the
`MkSkipped` map is shared between shadow and live state (see
`commitMapOnly`), so map mutations reach the live session on every path. -/
def RatchetDecrypt (c : Crypto) (rng : Nat) (s : State) (m : Message) (ad : AssociatedData) :
    Except DRError Plaintext × State :=
  match trySkippedMessageKeys c s m ad with
  | (Except.error e, sc) => (Except.error (DRError.trySkippedWrap e), commitMapOnly s sc)
  | (Except.ok (some plaintext), sc) => (Except.ok plaintext, commitMapOnly s sc)
  | (Except.ok none, sc0) =>
    match (if m.Header.DH ≠ sc0.DHr then
            match skipMessageKeys c sc0 m.Header.PN with
            | (Except.error e, sc1) => (Except.error (DRError.skipPreviousWrap e), sc1)
            | (Except.ok _, sc1) =>
              match dhRatchet c rng sc1 m.Header with
              | (Except.error e, sc2) => (Except.error (DRError.ratchetStepWrap e), sc2)
              | (Except.ok _, sc2) => (Except.ok (), sc2)
          else (Except.ok (), sc0) : Except DRError Unit × State) with
    | (Except.error e, sc3) => (Except.error e, commitMapOnly s sc3)
    | (Except.ok _, sc3) =>
      match skipMessageKeys c sc3 m.Header.N with
      | (Except.error e, sc4) => (Except.error (DRError.skipCurrentWrap e), commitMapOnly s sc4)
      | (Except.ok _, sc4) =>
        match c.Decrypt (c.KdfCK sc4.CKr).2 m.Ciphertext (encodeWithAD m.Header ad) with
        | none =>
          (Except.error DRError.decryptFailed,
           commitMapOnly s { sc4 with CKr := (c.KdfCK sc4.CKr).1, Nr := sc4.Nr + 1 })
        | some plaintext =>
          (Except.ok plaintext, { sc4 with CKr := (c.KdfCK sc4.CKr).1, Nr := sc4.Nr + 1 })

/-- The receiving chain key after `n` chain-KDF steps from `ck`. -/
def ckAt (c : Crypto) (ck : Key) : Nat → Key
  | 0 => ck
  | n + 1 => (c.KdfCK (ckAt c ck n)).1

/-- The message key produced at position `n` of the chain starting at `ck`. -/
def mkAt (c : Crypto) (ck : Key) (n : Nat) : Key :=
  (c.KdfCK (ckAt c ck n)).2

/-- A concrete executable crypto suite used to evaluate the engine on
closed inputs.  Encodings are built from the injective pairing `Nat.pair`;
`Decrypt` decodes and checks key and associated data, so the AEAD
round-trip property holds and decryption with a wrong key fails. -/
def ToyCrypto : Crypto where
  GenerateDH rng := some { PrivateKey := rng, PublicKey := rng + 1 }
  DH p pub := (p.PrivateKey + 1) * pub
  KdfRK rk dhOut := (Nat.pair 2 (Nat.pair rk dhOut), Nat.pair 3 (Nat.pair rk dhOut))
  KdfCK ck := (Nat.pair 4 ck, Nat.pair 5 ck)
  Encrypt mk pt adBytes := Nat.pair mk (Nat.pair pt adBytes)
  Decrypt mk ct adBytes :=
    if (Nat.unpair ct).1 = mk ∧ (Nat.unpair (Nat.unpair ct).2).2 = adBytes then
      some (Nat.unpair (Nat.unpair ct).2).1
    else none

/-- The toy suite satisfies the AEAD round-trip contract. -/
theorem toy_decrypt_encrypt (mk pt adBytes : Nat) :
    ToyCrypto.Decrypt mk (ToyCrypto.Encrypt mk pt adBytes) adBytes = some pt := by
  simp [ToyCrypto, Nat.unpair_pair]

/-! ### Association-list (Go map) lemmas -/

theorem lookupSk_insert_self (m : SkipMap) (k : Key × Nat) (v : Key) :
    lookupSk (insertSk m k v) k = some v := by
  simp [insertSk, lookupSk]

theorem lookupSk_erase_ne (m : SkipMap) (k k' : Key × Nat) (h : k' ≠ k) :
    lookupSk (eraseSk m k) k' = lookupSk m k' := by
  induction m with
  | nil => rfl
  | cons hd t ih =>
    obtain ⟨kh, vh⟩ := hd
    by_cases hk : kh = k
    · subst hk
      simp [eraseSk, lookupSk, ih, Ne.symm h]
    · simp only [eraseSk, if_neg hk, lookupSk, ih]

theorem lookupSk_insert_ne (m : SkipMap) (k k' : Key × Nat) (v : Key) (h : k' ≠ k) :
    lookupSk (insertSk m k v) k' = lookupSk m k' := by
  rw [insertSk, lookupSk, if_neg (fun he => h he.symm), lookupSk_erase_ne m k k' h]

theorem eraseSk_of_lookup_none (m : SkipMap) (k : Key × Nat) (h : lookupSk m k = none) :
    eraseSk m k = m := by
  induction m with
  | nil => rfl
  | cons hd t ih =>
    obtain ⟨kh, vh⟩ := hd
    by_cases hk : kh = k
    · simp [lookupSk, hk] at h
    · simp only [lookupSk, if_neg hk] at h
      simp [eraseSk, if_neg hk, ih h]

theorem length_insertSk_of_none (m : SkipMap) (k : Key × Nat) (v : Key)
    (h : lookupSk m k = none) : (insertSk m k v).length = m.length + 1 := by
  simp [insertSk, eraseSk_of_lookup_none m k h]

/-! ### Chain iteration lemmas -/

theorem ckAt_step (c : Crypto) (ck : Key) (n : Nat) :
    ckAt c (c.KdfCK ck).1 n = ckAt c ck (n + 1) := by
  induction n with
  | zero => rfl
  | succ k ih => simp [ckAt, ih]

theorem mkAt_step (c : Crypto) (ck : Key) (n : Nat) :
    mkAt c (c.KdfCK ck).1 n = mkAt c ck (n + 1) := by
  simp [mkAt, ckAt_step]

/-! ### Claim theorems -/

/-- C7: `RatchetEncrypt` derives `(CKs1, mk) = kdf_ck(CKs0)`, returns a
message whose header is `(DH = DHs.public, N = Ns0, PN = PN0)` and whose
ciphertext is `encrypt(mk, plaintext, encode_header_with_ad(header, ad))`;
afterwards `CKs = CKs1` and `Ns = Ns0 + 1`. -/
theorem RatchetEncrypt_spec (c : Crypto) (s : State) (pt : Plaintext) (ad : AssociatedData) :
    (RatchetEncrypt c s pt ad).1.Header =
      { DH := s.DHs.PublicKey, N := s.Ns, PN := s.PN } ∧
    (RatchetEncrypt c s pt ad).1.Ciphertext =
      c.Encrypt (c.KdfCK s.CKs).2 pt
        (encodeWithAD { DH := s.DHs.PublicKey, N := s.Ns, PN := s.PN } ad) ∧
    (RatchetEncrypt c s pt ad).2.CKs = (c.KdfCK s.CKs).1 ∧
    (RatchetEncrypt c s pt ad).2.Ns = s.Ns + 1 :=
  ⟨rfl, rfl, rfl, rfl⟩

/-- C8: `RatchetEncrypt` mutates only `CKs` (advanced exactly once) and
`Ns` (incremented by one); `RK`, `DHs`, `DHr`, `CKr`, `Nr`, `PN`,
`MkSkipped` and `MaxSkip` are unchanged. -/
theorem RatchetEncrypt_frame (c : Crypto) (s : State) (pt : Plaintext) (ad : AssociatedData) :
    (RatchetEncrypt c s pt ad).2.RK = s.RK ∧
    (RatchetEncrypt c s pt ad).2.DHs = s.DHs ∧
    (RatchetEncrypt c s pt ad).2.DHr = s.DHr ∧
    (RatchetEncrypt c s pt ad).2.CKr = s.CKr ∧
    (RatchetEncrypt c s pt ad).2.Nr = s.Nr ∧
    (RatchetEncrypt c s pt ad).2.PN = s.PN ∧
    (RatchetEncrypt c s pt ad).2.MkSkipped = s.MkSkipped ∧
    (RatchetEncrypt c s pt ad).2.MaxSkip = s.MaxSkip ∧
    (RatchetEncrypt c s pt ad).2.CKs = (c.KdfCK s.CKs).1 ∧
    (RatchetEncrypt c s pt ad).2.Ns = s.Ns + 1 :=
  ⟨rfl, rfl, rfl, rfl, rfl, rfl, rfl, rfl, rfl, rfl⟩

/-- C9: the constructor rejects the all-zero shared key with a
configuration error; for a non-zero shared key it seeds `RK = CKs = CKr`
with the shared key, empty `MkSkipped`, `MaxSkip = 1000`,
`Ns = Nr = PN = 0` and `DHr` the zero sentinel; with a remote key `dhr` it
additionally sets `DHr = dhr` and `(RK, CKs) = kdf_rk(RK, dh(DHs, dhr))`. -/
theorem New_spec (c : Crypto) (rng : Nat) (k dhr : Key) (p : DHPair)
    (hk : k ≠ zeroKey) (hg : c.GenerateDH rng = some p) :
    New c rng zeroKey = Except.error DRError.zeroSharedKey ∧
    New c rng k = Except.ok
      { RK := k, DHr := zeroKey, DHs := p, CKs := k, CKr := k,
        Ns := 0, Nr := 0, PN := 0, MkSkipped := [], MaxSkip := 1000 } ∧
    NewWithRemoteKey c rng k dhr = Except.ok
      { RK := (c.KdfRK k (c.DH p dhr)).1, DHr := dhr, DHs := p,
        CKs := (c.KdfRK k (c.DH p dhr)).2, CKr := k,
        Ns := 0, Nr := 0, PN := 0, MkSkipped := [], MaxSkip := 1000 } := by
  refine ⟨by simp [New, zeroKey], ?_, ?_⟩
  · simp [New, hk, hg]
  · simp [NewWithRemoteKey, New, hk, hg, Except.map, WithRemoteKey]

/-- Witness for `New_spec` at a concrete input of the toy suite. -/
theorem New_spec_witness :
    New ToyCrypto 4 zeroKey = Except.error DRError.zeroSharedKey ∧
    New ToyCrypto 4 1 = Except.ok
      { RK := 1, DHr := zeroKey, DHs := { PrivateKey := 4, PublicKey := 5 },
        CKs := 1, CKr := 1, Ns := 0, Nr := 0, PN := 0, MkSkipped := [], MaxSkip := 1000 } ∧
    NewWithRemoteKey ToyCrypto 4 1 3 = Except.ok
      { RK := (ToyCrypto.KdfRK 1 (ToyCrypto.DH { PrivateKey := 4, PublicKey := 5 } 3)).1,
        DHr := 3, DHs := { PrivateKey := 4, PublicKey := 5 },
        CKs := (ToyCrypto.KdfRK 1 (ToyCrypto.DH { PrivateKey := 4, PublicKey := 5 } 3)).2,
        CKr := 1, Ns := 0, Nr := 0, PN := 0, MkSkipped := [], MaxSkip := 1000 } :=
  New_spec ToyCrypto 4 1 3 { PrivateKey := 4, PublicKey := 5 } (by decide) rfl

/-- C5: the DH ratchet step sets, in the Go assignment order, `PN` to the
pre-step `Ns`, `Ns` and `Nr` to `0`, `DHr` to the header's key, derives
`(RK, CKr)` from the old `DHs`, installs the freshly generated `DHs`, and
derives `(RK, CKs)` from it; in particular afterwards `Ns = 0`, `Nr = 0`
and `PN` holds the pre-step `Ns`. -/
theorem dhRatchet_spec (c : Crypto) (rng : Nat) (s : State) (mh : MessageHeader) (p : DHPair)
    (hg : c.GenerateDH rng = some p) :
    dhRatchet c rng s mh =
      (Except.ok (),
       { s with PN := s.Ns, Ns := 0, Nr := 0, DHr := mh.DH, DHs := p,
                CKr := (c.KdfRK s.RK (c.DH s.DHs mh.DH)).2,
                RK := (c.KdfRK (c.KdfRK s.RK (c.DH s.DHs mh.DH)).1 (c.DH p mh.DH)).1,
                CKs := (c.KdfRK (c.KdfRK s.RK (c.DH s.DHs mh.DH)).1 (c.DH p mh.DH)).2 }) := by
  simp [dhRatchet, hg]

/-- Witness for `dhRatchet_spec` at a concrete input of the toy suite. -/
theorem dhRatchet_spec_witness :
    dhRatchet ToyCrypto 6
      { RK := 1, DHr := 0, DHs := { PrivateKey := 2, PublicKey := 3 }, CKs := 1, CKr := 1,
        Ns := 4, Nr := 2, PN := 0, MkSkipped := [], MaxSkip := 1000 }
      { DH := 9, N := 0, PN := 0 } =
      (Except.ok (),
       { RK := (ToyCrypto.KdfRK (ToyCrypto.KdfRK 1
                  (ToyCrypto.DH { PrivateKey := 2, PublicKey := 3 } 9)).1
                  (ToyCrypto.DH { PrivateKey := 6, PublicKey := 7 } 9)).1,
         DHr := 9, DHs := { PrivateKey := 6, PublicKey := 7 },
         CKs := (ToyCrypto.KdfRK (ToyCrypto.KdfRK 1
                  (ToyCrypto.DH { PrivateKey := 2, PublicKey := 3 } 9)).1
                  (ToyCrypto.DH { PrivateKey := 6, PublicKey := 7 } 9)).2,
         CKr := (ToyCrypto.KdfRK 1 (ToyCrypto.DH { PrivateKey := 2, PublicKey := 3 } 9)).2,
         Ns := 0, Nr := 0, PN := 4, MkSkipped := [], MaxSkip := 1000 }) :=
  dhRatchet_spec ToyCrypto 6
    { RK := 1, DHr := 0, DHs := { PrivateKey := 2, PublicKey := 3 }, CKs := 1, CKr := 1,
      Ns := 4, Nr := 2, PN := 0, MkSkipped := [], MaxSkip := 1000 }
    { DH := 9, N := 0, PN := 0 } { PrivateKey := 6, PublicKey := 7 } rfl

/-- Full characterisation of the `skipMessageKeys` derivation loop, by
induction on the iteration count. -/
theorem skipMessageKeysGo_spec (c : Crypto) (untl : Nat) :
    ∀ (n : Nat) (s : State), untl - s.Nr = n → s.Nr ≤ untl →
    (skipMessageKeysGo c untl n s).Nr = untl ∧
    (skipMessageKeysGo c untl n s).CKr = ckAt c s.CKr (untl - s.Nr) ∧
    (skipMessageKeysGo c untl n s).RK = s.RK ∧
    (skipMessageKeysGo c untl n s).DHr = s.DHr ∧
    (skipMessageKeysGo c untl n s).DHs = s.DHs ∧
    (skipMessageKeysGo c untl n s).CKs = s.CKs ∧
    (skipMessageKeysGo c untl n s).Ns = s.Ns ∧
    (skipMessageKeysGo c untl n s).PN = s.PN ∧
    (skipMessageKeysGo c untl n s).MaxSkip = s.MaxSkip ∧
    (∀ i, s.Nr ≤ i → i < untl →
      lookupSk (skipMessageKeysGo c untl n s).MkSkipped (s.DHr, i) =
        some (mkAt c s.CKr (i - s.Nr))) ∧
    (∀ k, (∀ i, s.Nr ≤ i → i < untl → k ≠ (s.DHr, i)) →
      lookupSk (skipMessageKeysGo c untl n s).MkSkipped k = lookupSk s.MkSkipped k) ∧
    ((∀ i, s.Nr ≤ i → i < untl → lookupSk s.MkSkipped (s.DHr, i) = none) →
      (skipMessageKeysGo c untl n s).MkSkipped.length =
        s.MkSkipped.length + (untl - s.Nr)) := by
  intro n
  induction n with
  | zero =>
    intro s hn hle
    have heq : s.Nr = untl := by omega
    refine ⟨heq, by rw [hn]; rfl, rfl, rfl, rfl, rfl, rfl, rfl, rfl, ?_, ?_, ?_⟩
    · intro i hi1 hi2; omega
    · intro k _; rfl
    · intro _; rw [hn]; exact rfl
  | succ nn ih =>
    intro s hn hle
    have hlt : s.Nr < untl := by omega
    rw [skipMessageKeysGo, if_pos hlt]
    have hih := ih
      { s with CKr := (c.KdfCK s.CKr).1,
               MkSkipped := insertSk s.MkSkipped (skippedKey s.DHr s.Nr) (c.KdfCK s.CKr).2,
               Nr := s.Nr + 1 }
      (by show untl - (s.Nr + 1) = nn; omega) (by show s.Nr + 1 ≤ untl; omega)
    obtain ⟨hNr, hCKr, hRK, hDHr, hDHs, hCKs, hNs, hPN, hMax, hLook, hFrame, hLen⟩ := hih
    simp only [skippedKey] at hNr hCKr hRK hDHr hDHs hCKs hNs hPN hMax hLook hFrame hLen
    simp only [skippedKey]
    refine ⟨hNr, ?_, hRK, hDHr, hDHs, hCKs, hNs, hPN, hMax, ?_, ?_, ?_⟩
    · rw [hCKr, ckAt_step]
      congr 1
      omega
    · intro i hi1 hi2
      by_cases hc : i = s.Nr
      · rw [hc, hFrame (s.DHr, s.Nr)
              (fun j hj1 hj2 hne => absurd (congrArg Prod.snd hne) (by omega)),
            lookupSk_insert_self, Nat.sub_self]
        rfl
      · have hi1' : s.Nr + 1 ≤ i := by omega
        rw [hLook i hi1' hi2, mkAt_step]
        have harith : i - (s.Nr + 1) + 1 = i - s.Nr := by omega
        rw [harith]
    · intro k hk
      rw [hFrame k (fun j hj1 hj2 => hk j (by omega) hj2),
          lookupSk_insert_ne s.MkSkipped (s.DHr, s.Nr) k (c.KdfCK s.CKr).2
            (hk s.Nr (le_refl _) hlt)]
    · intro hfresh
      have hfresh1 : lookupSk s.MkSkipped (s.DHr, s.Nr) = none :=
        hfresh s.Nr (le_refl _) hlt
      have hfresh' : ∀ i, s.Nr + 1 ≤ i → i < untl →
          lookupSk (insertSk s.MkSkipped (s.DHr, s.Nr) (c.KdfCK s.CKr).2)
            (s.DHr, i) = none := by
        intro i hi1 hi2
        rw [lookupSk_insert_ne s.MkSkipped (s.DHr, s.Nr) (s.DHr, i) (c.KdfCK s.CKr).2
              (fun hne => absurd (congrArg Prod.snd hne) (by omega))]
        exact hfresh i (by omega) hi2
      rw [hLen hfresh',
          length_insertSk_of_none s.MkSkipped (s.DHr, s.Nr) (c.KdfCK s.CKr).2 hfresh1]
      omega

/-- C6 (amended: the target index must also be at least the entry `Nr`):
when `entry_Nr ≤ until ≤ entry_Nr + MaxSkip`, `skipMessageKeys` succeeds,
afterwards `Nr = until`, `CKr` has advanced `until − entry_Nr` steps, the
keys `(DHr, i)` for `entry_Nr ≤ i < until` map to the message key obtained
by iterating `kdf_ck` on the entry `CKr`, every other key is unchanged,
and — when none of those keys was already present — exactly
`until − entry_Nr` new entries exist. -/
theorem skipMessageKeys_spec (c : Crypto) (s : State) (untl : Nat)
    (hge : s.Nr ≤ untl) (hbound : untl ≤ s.Nr + s.MaxSkip) :
    (skipMessageKeys c s untl).1 = Except.ok () ∧
    (skipMessageKeys c s untl).2.Nr = untl ∧
    (skipMessageKeys c s untl).2.CKr = ckAt c s.CKr (untl - s.Nr) ∧
    (∀ i, s.Nr ≤ i → i < untl →
      lookupSk (skipMessageKeys c s untl).2.MkSkipped (s.DHr, i) =
        some (mkAt c s.CKr (i - s.Nr))) ∧
    (∀ k, (∀ i, s.Nr ≤ i → i < untl → k ≠ (s.DHr, i)) →
      lookupSk (skipMessageKeys c s untl).2.MkSkipped k = lookupSk s.MkSkipped k) ∧
    ((∀ i, s.Nr ≤ i → i < untl → lookupSk s.MkSkipped (s.DHr, i) = none) →
      (skipMessageKeys c s untl).2.MkSkipped.length =
        s.MkSkipped.length + (untl - s.Nr)) := by
  have hnot : ¬ (s.Nr + s.MaxSkip < untl) := by omega
  obtain ⟨hNr, hCKr, _, _, _, _, _, _, _, hLook, hFrame, hLen⟩ :=
    skipMessageKeysGo_spec c untl (untl - s.Nr) s rfl hge
  rw [skipMessageKeys, if_neg hnot]
  exact ⟨rfl, hNr, hCKr, hLook, hFrame, hLen⟩

/-- Witness for `skipMessageKeys_spec`: skipping from `Nr = 0` to `2` in a
concrete toy-suite state stores keys at `(DHr, 0)` and `(DHr, 1)`. -/
theorem skipMessageKeys_spec_witness :
    (0 : Nat) ≤ 2 ∧ (2 : Nat) ≤ 0 + 1000 ∧
    (skipMessageKeys ToyCrypto
      { RK := 1, DHr := 3, DHs := { PrivateKey := 2, PublicKey := 3 }, CKs := 1, CKr := 1,
        Ns := 0, Nr := 0, PN := 0, MkSkipped := [], MaxSkip := 1000 } 2).2.Nr = 2 :=
  ⟨by decide, by decide,
    (skipMessageKeys_spec ToyCrypto
      { RK := 1, DHr := 3, DHs := { PrivateKey := 2, PublicKey := 3 }, CKs := 1, CKr := 1,
        Ns := 0, Nr := 0, PN := 0, MkSkipped := [], MaxSkip := 1000 } 2
      (by decide) (by decide)).2.1⟩

/-- Counterexample to C6 as stated: with `entry_Nr = 5 > until = 3` (which
satisfies the claim's only precondition `entry_Nr + MaxSkip ≥ until`), the
subroutine succeeds but leaves `Nr = 5 ≠ until`. -/
theorem skipMessageKeys_claim_counterexample :
    (skipMessageKeys ToyCrypto
      { RK := 1, DHr := 3, DHs := { PrivateKey := 2, PublicKey := 3 }, CKs := 1, CKr := 1,
        Ns := 0, Nr := 5, PN := 0, MkSkipped := [], MaxSkip := 1000 } 3).1 = Except.ok () ∧
    (skipMessageKeys ToyCrypto
      { RK := 1, DHr := 3, DHs := { PrivateKey := 2, PublicKey := 3 }, CKs := 1, CKr := 1,
        Ns := 0, Nr := 5, PN := 0, MkSkipped := [], MaxSkip := 1000 } 3).2.Nr ≠ 3 :=
  ⟨rfl, by decide⟩

/-- C3: when `MkSkipped` holds an entry under `(header.DH, header.N)`:
if AEAD decryption with the stored key succeeds, `RatchetDecrypt` returns
the plaintext and the live session is the old one with exactly that entry
removed; if the AEAD decryption fails, it returns an error and the live
session — the entry included — is unchanged. -/
theorem trySkipped_path_spec (c : Crypto) (rng : Nat) (s : State) (m : Message)
    (ad : AssociatedData) (mk : Key)
    (hlk : lookupSk s.MkSkipped (m.Header.DH, m.Header.N) = some mk) :
    (∀ pt, c.Decrypt mk m.Ciphertext (encodeWithAD m.Header ad) = some pt →
      RatchetDecrypt c rng s m ad =
        (Except.ok pt,
         { s with MkSkipped := eraseSk s.MkSkipped (m.Header.DH, m.Header.N) })) ∧
    (c.Decrypt mk m.Ciphertext (encodeWithAD m.Header ad) = none →
      (RatchetDecrypt c rng s m ad).1 =
        Except.error (DRError.trySkippedWrap DRError.cantDecryptMessage) ∧
      (RatchetDecrypt c rng s m ad).2 = s ∧
      lookupSk (RatchetDecrypt c rng s m ad).2.MkSkipped (m.Header.DH, m.Header.N) =
        some mk) := by
  constructor
  · intro pt hdec
    rw [RatchetDecrypt]
    simp only [trySkippedMessageKeys, skippedKey, hlk, hdec, commitMapOnly]
  · intro hdec
    rw [RatchetDecrypt]
    simp only [trySkippedMessageKeys, skippedKey, hlk, hdec, commitMapOnly]
    exact ⟨trivial, trivial, trivial⟩

/-- Concrete state for evaluating the skipped-key path of the toy suite. -/
def skippedState : State :=
  { RK := 1, DHr := 3, DHs := { PrivateKey := 2, PublicKey := 3 }, CKs := 1, CKr := 1,
    Ns := 0, Nr := 1, PN := 0,
    MkSkipped := [((3, 0), 9)], MaxSkip := 1000 }

/-- Concrete message decryptable by the cached key `9` of `skippedState`. -/
def skippedMessage : Message :=
  { Header := { DH := 3, N := 0, PN := 0 },
    Ciphertext := ToyCrypto.Encrypt 9 5 (encodeWithAD { DH := 3, N := 0, PN := 0 } 7) }

/-- Witness for `trySkipped_path_spec`: the toy suite decrypts
`skippedMessage` via the cached key and removes the entry. -/
theorem trySkipped_path_spec_witness :
    RatchetDecrypt ToyCrypto 0 skippedState skippedMessage 7 =
      (Except.ok 5, { skippedState with MkSkipped := [] }) :=
  (trySkipped_path_spec ToyCrypto 0 skippedState skippedMessage 7 9 rfl).1 5
    (toy_decrypt_encrypt 9 5 (encodeWithAD { DH := 3, N := 0, PN := 0 } 7))

/-- C10: a decrypt that succeeds through the skipped-key path changes no
session field other than `MkSkipped`: `RK`, `DHs`, `DHr`, `CKs`, `CKr`,
`Ns`, `Nr`, `PN` and `MaxSkip` are untouched, and the only map change is
the removal of the consumed entry. -/
theorem trySkipped_path_frame (c : Crypto) (rng : Nat) (s : State) (m : Message)
    (ad : AssociatedData) (mk : Key) (pt : Plaintext)
    (hlk : lookupSk s.MkSkipped (m.Header.DH, m.Header.N) = some mk)
    (hdec : c.Decrypt mk m.Ciphertext (encodeWithAD m.Header ad) = some pt) :
    (RatchetDecrypt c rng s m ad).2.RK = s.RK ∧
    (RatchetDecrypt c rng s m ad).2.DHs = s.DHs ∧
    (RatchetDecrypt c rng s m ad).2.DHr = s.DHr ∧
    (RatchetDecrypt c rng s m ad).2.CKs = s.CKs ∧
    (RatchetDecrypt c rng s m ad).2.CKr = s.CKr ∧
    (RatchetDecrypt c rng s m ad).2.Ns = s.Ns ∧
    (RatchetDecrypt c rng s m ad).2.Nr = s.Nr ∧
    (RatchetDecrypt c rng s m ad).2.PN = s.PN ∧
    (RatchetDecrypt c rng s m ad).2.MaxSkip = s.MaxSkip ∧
    (RatchetDecrypt c rng s m ad).2.MkSkipped =
      eraseSk s.MkSkipped (m.Header.DH, m.Header.N) := by
  rw [RatchetDecrypt]
  simp only [trySkippedMessageKeys, skippedKey, hlk, hdec, commitMapOnly]
  exact ⟨trivial, trivial, trivial, trivial, trivial, trivial, trivial, trivial, trivial,
    trivial⟩

/-- Witness for `trySkipped_path_frame` on the concrete skipped-key state. -/
theorem trySkipped_path_frame_witness :
    (RatchetDecrypt ToyCrypto 0 skippedState skippedMessage 7).2.Nr = skippedState.Nr ∧
    (RatchetDecrypt ToyCrypto 0 skippedState skippedMessage 7).2.MkSkipped =
      eraseSk skippedState.MkSkipped (3, 0) :=
  ⟨(trySkipped_path_frame ToyCrypto 0 skippedState skippedMessage 7 9 5 rfl
      (toy_decrypt_encrypt 9 5 (encodeWithAD { DH := 3, N := 0, PN := 0 } 7))).2.2.2.2.2.2.1,
   (trySkipped_path_frame ToyCrypto 0 skippedState skippedMessage 7 9 5 rfl
      (toy_decrypt_encrypt 9 5 (encodeWithAD { DH := 3, N := 0, PN := 0 } 7))).2.2.2.2.2.2.2.2.2⟩

/-- C4: with `DHr` equal to the header's ratchet key and no cached entry
for `(header.DH, header.N)`, `RatchetDecrypt` fails with the
too-many-skipped error exactly when `Nr + MaxSkip < header.N`, and in that
case the error is raised before any mutation: the live session is exactly
the pre-call session. -/
theorem skipLimit_spec (c : Crypto) (rng : Nat) (s : State) (m : Message)
    (ad : AssociatedData)
    (hdh : s.DHr = m.Header.DH)
    (hlk : lookupSk s.MkSkipped (m.Header.DH, m.Header.N) = none) :
    ((∃ g, (RatchetDecrypt c rng s m ad).1 =
        Except.error (DRError.skipCurrentWrap (DRError.tooManyMessages g))) ↔
      s.Nr + s.MaxSkip < m.Header.N) ∧
    (s.Nr + s.MaxSkip < m.Header.N →
      RatchetDecrypt c rng s m ad =
        (Except.error (DRError.skipCurrentWrap
          (DRError.tooManyMessages (m.Header.N - s.Nr))), s)) := by
  rw [RatchetDecrypt]
  simp only [trySkippedMessageKeys, skippedKey, hlk, hdh, ne_eq, not_true_eq_false,
    if_false, ite_false]
  by_cases hc : s.Nr + s.MaxSkip < m.Header.N
  · simp only [skipMessageKeys, if_pos hc, commitMapOnly]
    refine ⟨⟨fun _ => hc, fun _ => ⟨m.Header.N - s.Nr, rfl⟩⟩, fun _ => trivial⟩
  · simp only [skipMessageKeys, if_neg hc]
    cases hdec : c.Decrypt (c.KdfCK (skipMessageKeysLoop c s m.Header.N).CKr).2
        m.Ciphertext (encodeWithAD m.Header ad) with
    | none =>
      simp only
      refine ⟨⟨fun h => ?_, fun h => absurd h hc⟩, fun h => absurd h hc⟩
      obtain ⟨g, hg⟩ := h
      simp at hg
    | some pt =>
      simp only
      refine ⟨⟨fun h => ?_, fun h => absurd h hc⟩, fun h => absurd h hc⟩
      obtain ⟨g, hg⟩ := h
      simp at hg

/-- Concrete state for evaluating the skip-limit error path. -/
def limitState : State :=
  { RK := 1, DHr := 3, DHs := { PrivateKey := 2, PublicKey := 3 }, CKs := 1, CKr := 1,
    Ns := 0, Nr := 0, PN := 0, MkSkipped := [], MaxSkip := 1000 }

/-- A same-chain message whose index exceeds the skip window. -/
def limitMessage : Message :=
  { Header := { DH := 3, N := 2000, PN := 0 }, Ciphertext := 0 }

/-- Witness for `skipLimit_spec`: index `2000` against `Nr = 0`,
`MaxSkip = 1000` is rejected with the too-many-skipped error and the
session is returned unchanged. -/
theorem skipLimit_spec_witness :
    RatchetDecrypt ToyCrypto 0 limitState limitMessage 0 =
      (Except.error (DRError.skipCurrentWrap (DRError.tooManyMessages 2000)), limitState) :=
  (skipLimit_spec ToyCrypto 0 limitState limitMessage 0 rfl rfl).2 (by decide)

/-- C2: round-trip on the same chain.  `A` is built from a non-zero shared
key `k` and `B`'s ratchet public key, `B` from `k` alone; under the AEAD
round-trip contract and the DH commutativity instance the suites must
satisfy, `B` decrypts `A`'s first message back to the plaintext. -/
theorem encrypt_decrypt_roundtrip (c : Crypto) (rngA rngB rngB2 : Nat) (k : Key)
    (pt0 : Plaintext) (ad : AssociatedData) (pA pB pB2 : DHPair)
    (hgA : c.GenerateDH rngA = some pA)
    (hgB : c.GenerateDH rngB = some pB)
    (hgB2 : c.GenerateDH rngB2 = some pB2)
    (hk : k ≠ zeroKey)
    (hpub : pA.PublicKey ≠ zeroKey)
    (hRT : ∀ mk pt adBytes, c.Decrypt mk (c.Encrypt mk pt adBytes) adBytes = some pt)
    (hDH1 : c.DH pB pA.PublicKey = c.DH pA pB.PublicKey)
    (sA sB : State)
    (hA : NewWithRemoteKey c rngA k pB.PublicKey = Except.ok sA)
    (hB : New c rngB k = Except.ok sB) :
    (RatchetDecrypt c rngB2 sB (RatchetEncrypt c sA pt0 ad).1 ad).1 = Except.ok pt0 := by
  rw [New, if_neg hk, hgB] at hB
  injection hB with hB
  subst hB
  rw [NewWithRemoteKey, New, if_neg hk, hgA] at hA
  simp only [Except.map] at hA
  injection hA with hA
  subst hA
  have hpub0 : pA.PublicKey ≠ 0 := hpub
  simp [RatchetEncrypt, RatchetDecrypt, trySkippedMessageKeys, lookupSk, skippedKey,
    skipMessageKeys, skipMessageKeysLoop, skipMessageKeysGo, dhRatchet, commitMapOnly,
    WithRemoteKey, zeroKey, hgB2, hpub0, hDH1, hRT]

/-- The initiator session of the concrete round-trip scenario. -/
def sessionA : State :=
  { RK := (ToyCrypto.KdfRK 1 (ToyCrypto.DH { PrivateKey := 1, PublicKey := 2 } 3)).1,
    DHr := 3, DHs := { PrivateKey := 1, PublicKey := 2 },
    CKs := (ToyCrypto.KdfRK 1 (ToyCrypto.DH { PrivateKey := 1, PublicKey := 2 } 3)).2,
    CKr := 1, Ns := 0, Nr := 0, PN := 0, MkSkipped := [], MaxSkip := 1000 }

/-- The responder session of the concrete round-trip scenario. -/
def sessionB : State :=
  { RK := 1, DHr := 0, DHs := { PrivateKey := 2, PublicKey := 3 }, CKs := 1, CKr := 1,
    Ns := 0, Nr := 0, PN := 0, MkSkipped := [], MaxSkip := 1000 }

/-- Witness for `encrypt_decrypt_roundtrip` in the toy suite. -/
theorem encrypt_decrypt_roundtrip_witness :
    (RatchetDecrypt ToyCrypto 6 sessionB (RatchetEncrypt ToyCrypto sessionA 5 7).1 7).1 =
      Except.ok 5 :=
  encrypt_decrypt_roundtrip ToyCrypto 1 2 6 1 5 7
    { PrivateKey := 1, PublicKey := 2 } { PrivateKey := 2, PublicKey := 3 }
    { PrivateKey := 6, PublicKey := 7 }
    rfl rfl rfl (by decide) (by decide)
    (fun mk pt adBytes => toy_decrypt_encrypt mk pt adBytes) (by decide)
    sessionA sessionB rfl rfl

/-- A session whose receiving chain is at `Nr = 0` with remote key `3`. -/
def dirtyState : State :=
  { RK := 1, DHr := 3, DHs := { PrivateKey := 2, PublicKey := 3 }, CKs := 1, CKr := 1,
    Ns := 0, Nr := 0, PN := 0, MkSkipped := [], MaxSkip := 1000 }

/-- A same-chain message at index 1 whose ciphertext fails the AEAD check. -/
def dirtyMessage : Message :=
  { Header := { DH := 3, N := 1, PN := 0 }, Ciphertext := 0 }

/-- C1 fails on the code: decrypting `dirtyMessage` errors (AEAD failure)
yet the live session's `MkSkipped` has gained the key skipped on the way
to index 1 — the Go shadow copy shares the map with the live state, so a
failing decrypt is not atomic, contrary to the claim and to the code's own
comment. -/
theorem ratchetDecrypt_error_not_atomic :
    (RatchetDecrypt ToyCrypto 0 dirtyState dirtyMessage 0).1 =
      Except.error DRError.decryptFailed ∧
    (RatchetDecrypt ToyCrypto 0 dirtyState dirtyMessage 0).2.MkSkipped ≠
      dirtyState.MkSkipped :=
  ⟨rfl, by decide⟩

end DoubleRatchet
